import Mathlib

/-!
Shallow embedding of fs/nilfs2/atime.c (the NILFS atime metadata file).

The source keeps, for each inode number, a last-access timestamp inside a
block-indexed metadata file.  Each 512-byte block holds an 8-byte header
with a 64-bit live-entry counter, followed by 31 packed 16-byte timespec
entries.  The entry value (0, 0) means "absent".  The operations are
nilfs_atime_fill_inode (read-or-initialize), nilfs_atime_update_from_inode
(unconditional set) and nilfs_atime_delete_inode_entry (zero the entry,
decrement the counter, reclaim the block when the counter reaches zero).

Machine integers are modelled as Nat with explicit reduction modulo 2^64
where the C code uses a __u64 (the header counter).  The backing metadata
layer (nilfs_mdt_get_block and friends) is external; its success or failure
is passed in as an explicit parameter, and the calls the operations make to
it are recorded in an event trace so that ordering claims can be stated.
-/

/-- 2^64, the modulus of the __u64 header counter. -/
def U64_MOD : Nat := 18446744073709551616

/-- Size in bytes of struct nilfs_atime_block_header (one __u64). -/
def NILFS_ATIME_HEADER_SIZE : Nat := 8

/-- Size in bytes of a packed struct timespec entry (two 64-bit fields). -/
def NILFS_ATIME_ENTRY_SIZE : Nat := 16

/-- NILFS_ENTRIES_IN_ATIME_BLOCK from the source:
(512 - sizeof(struct nilfs_atime_block_header)) / sizeof(struct timespec). -/
def NILFS_ENTRIES_IN_ATIME_BLOCK : Nat :=
  (512 - NILFS_ATIME_HEADER_SIZE) / NILFS_ATIME_ENTRY_SIZE

/-- struct timespec: seconds and nanoseconds, both 64-bit signed fields. -/
structure Timespec where
  tv_sec : Int
  tv_nsec : Int
deriving DecidableEq, Repr

/-- The reserved "absent" test used by the source:
(0 == atime->tv_sec) && (0 == atime->tv_nsec). -/
def Timespec.isAbsent (t : Timespec) : Bool :=
  t.tv_sec == 0 && t.tv_nsec == 0

/-- struct nilfs_atime_block_header: the live-entry counter (a __u64,
kept reduced modulo 2^64). -/
structure AtimeBlockHeader where
  count : Nat
deriving DecidableEq, Repr

/-- struct nilfs_atime_block: header followed by the fixed entry array.
The array is embedded as a list; every block the code ever builds has
exactly NILFS_ENTRIES_IN_ATIME_BLOCK entries. -/
structure AtimeBlock where
  header : AtimeBlockHeader
  entries : List Timespec
deriving DecidableEq, Repr

/-- nilfs_atime_get_block_number: inode_num / NILFS_ENTRIES_IN_ATIME_BLOCK. -/
def nilfs_atime_get_block_number (inode_num : Nat) : Nat :=
  inode_num / NILFS_ENTRIES_IN_ATIME_BLOCK

/-- The in-block index computed by nilfs_atime_get_entry_in_block:
inode_num % NILFS_ENTRIES_IN_ATIME_BLOCK. -/
def nilfs_atime_entry_offset (inode_num : Nat) : Nat :=
  inode_num % NILFS_ENTRIES_IN_ATIME_BLOCK

/-- nilfs_atime_get_entry_in_block, read side: the entry the returned
pointer designates, &atime_block->entries[inode_num % N]. -/
def nilfs_atime_get_entry_in_block (b : AtimeBlock) (inode_num : Nat) : Timespec :=
  b.entries.getD (nilfs_atime_entry_offset inode_num) ⟨0, 0⟩

/-- nilfs_atime_block_init: the zero-filled block created by
memset(atime_block, 0, sizeof(*atime_block)). -/
def nilfs_atime_block_init : AtimeBlock :=
  ⟨⟨0⟩, List.replicate NILFS_ENTRIES_IN_ATIME_BLOCK ⟨0, 0⟩⟩

/-- Body of nilfs_atime_fill_inode after the block is acquired: if the
entry is (0,0), write the fallback mtime into the slot and increment the
counter; the second component is the value the caller copies into
inode->i_atime (the entry the pointer designates after the branch). -/
def fillBlockEntry (b : AtimeBlock) (inode_num : Nat) (mtime : Timespec) :
    AtimeBlock × Timespec :=
  let atime := nilfs_atime_get_entry_in_block b inode_num
  if atime.isAbsent then
    (⟨⟨(b.header.count + 1) % U64_MOD⟩,
      b.entries.set (nilfs_atime_entry_offset inode_num) mtime⟩, mtime)
  else
    (b, atime)

/-- Body of nilfs_atime_update_from_inode after the block is acquired:
overwrite the entry unconditionally, touch nothing else. -/
def updateBlockEntry (b : AtimeBlock) (inode_num : Nat) (t : Timespec) : AtimeBlock :=
  ⟨b.header, b.entries.set (nilfs_atime_entry_offset inode_num) t⟩

/-- Body of nilfs_atime_delete_inode_entry after the block is acquired:
zero the entry, decrement the __u64 counter (wrapping), and report
needs_release = (0 == atime_block->header.count). -/
def deleteBlockEntry (b : AtimeBlock) (inode_num : Nat) : AtimeBlock × Bool :=
  let newCount := (b.header.count + (U64_MOD - 1)) % U64_MOD
  (⟨⟨newCount⟩, b.entries.set (nilfs_atime_entry_offset inode_num) ⟨0, 0⟩⟩,
   newCount == 0)

/-- Number of entries of a list that are not the absent value (0,0). -/
def liveCountList (l : List Timespec) : Nat :=
  (l.filter (fun t => !t.isAbsent)).length

/-- Number of non-(0,0) entries of a block. -/
def liveCount (b : AtimeBlock) : Nat :=
  liveCountList b.entries

/-- The two error codes nilfs_atime_get_block is documented to return:
EIO (I/O error, errno 5) and ENOMEM (insufficient memory, errno 12). -/
inductive AtimeErr where
  | ioError
  | outOfMemory
deriving DecidableEq, Repr

/-- The negative errno value returned for each acquisition failure. -/
def errCode : AtimeErr → Int
  | .ioError => -5
  | .outOfMemory => -12

/-- Calls the atime code makes into the backing layers, recorded in order:
nilfs_mdt_get_block, mark_buffer_dirty, nilfs_mdt_mark_dirty,
nilfs_atime_put_block (kunmap + brelse) and nilfs_mdt_delete_block. -/
inductive AtimeEvent where
  | getBlock (blockNum : Nat)
  | markBufferDirty (blockNum : Nat)
  | markFileDirty
  | putBlock (blockNum : Nat)
  | mdtDeleteBlock (blockNum : Nat)
deriving DecidableEq, Repr

/-- The atime metadata file as the MDT layer exposes it: a partial map from
block numbers to block contents.  A missing block is created zero-filled on
first access (nilfs_mdt_get_block with create = 1). -/
structure AtimeStore where
  blocks : Nat → Option AtimeBlock

/-- The empty atime file: no block exists yet. -/
def emptyStore : AtimeStore :=
  ⟨fun _ => none⟩

/-- Write back the (possibly mutated) contents of one block. -/
def storeSet (s : AtimeStore) (bn : Nat) (b : AtimeBlock) : AtimeStore :=
  ⟨fun m => if m = bn then some b else s.blocks m⟩

/-- Effect of a successful nilfs_mdt_delete_block: the block is gone. -/
def storeErase (s : AtimeStore) (bn : Nat) : AtimeStore :=
  ⟨fun m => if m = bn then none else s.blocks m⟩

/-- nilfs_atime_get_block: acquire (creating and zero-filling on miss) the
block hosting inode_num, marking the buffer and the file dirty.  The
backing layer is external, so its outcome is the parameter acq: none means
success, some e means nilfs_mdt_get_block failed with e, in which case no
buffer is mapped and nothing is marked dirty. -/
def nilfs_atime_get_block (s : AtimeStore) (inode_num : Nat)
    (acq : Option AtimeErr) : Except AtimeErr AtimeBlock × List AtimeEvent :=
  let bn := nilfs_atime_get_block_number inode_num
  match acq with
  | some e => (.error e, [.getBlock bn])
  | none => (.ok ((s.blocks bn).getD nilfs_atime_block_init),
             [.getBlock bn, .markBufferDirty bn, .markFileDirty])

/-- The fields of struct inode the atime code touches: the inode number,
the access time and the modification time. -/
structure InodeState where
  i_ino : Nat
  i_atime : Timespec
  i_mtime : Timespec
deriving DecidableEq, Repr

/-- nilfs_atime_fill_inode.  atimefile is the atime file inode (none models
the NULL pointer); atimefileIsInode models the pointer equality
atimefile == inode.  Returns the C return value, the inode after the call,
the atime file after the call, and the trace of backing-layer calls. -/
def nilfs_atime_fill_inode (atimefile : Option AtimeStore)
    (atimefileIsInode : Bool) (inode : InodeState) (acq : Option AtimeErr) :
    Int × InodeState × Option AtimeStore × List AtimeEvent :=
  match atimefile with
  | none => (0, { inode with i_atime := inode.i_mtime }, none, [])
  | some s =>
    if atimefileIsInode then
      (0, { inode with i_atime := inode.i_mtime }, some s, [])
    else
      match nilfs_atime_get_block s inode.i_ino acq with
      | (.error e, evs) => (errCode e, inode, some s, evs)
      | (.ok blk, evs) =>
        let bn := nilfs_atime_get_block_number inode.i_ino
        let r := fillBlockEntry blk inode.i_ino inode.i_mtime
        (0, { inode with i_atime := r.2 }, some (storeSet s bn r.1),
         evs ++ [.putBlock bn])

/-- nilfs_atime_update_from_inode: acquire the block, overwrite the entry
with inode->i_atime unconditionally, release. -/
def nilfs_atime_update_from_inode (s : AtimeStore) (inode : InodeState)
    (acq : Option AtimeErr) : Int × AtimeStore × List AtimeEvent :=
  match nilfs_atime_get_block s inode.i_ino acq with
  | (.error e, evs) => (errCode e, s, evs)
  | (.ok blk, evs) =>
    let bn := nilfs_atime_get_block_number inode.i_ino
    let blk' := updateBlockEntry blk inode.i_ino inode.i_atime
    (0, storeSet s bn blk', evs ++ [.putBlock bn])

/-- nilfs_atime_delete_inode_entry: acquire the block, zero the entry,
decrement the counter, release, and when the counter reached zero request
nilfs_mdt_delete_block on the block number after the release.  The return
value of nilfs_mdt_delete_block is external and discarded by the source;
it is passed in as mdtDeleteRet (0 meaning the reclamation succeeded and
the block is actually removed). -/
def nilfs_atime_delete_inode_entry (s : AtimeStore) (inode_num : Nat)
    (acq : Option AtimeErr) (mdtDeleteRet : Int) :
    Int × AtimeStore × List AtimeEvent :=
  match nilfs_atime_get_block s inode_num acq with
  | (.error e, evs) => (errCode e, s, evs)
  | (.ok blk, evs) =>
    let bn := nilfs_atime_get_block_number inode_num
    let r := deleteBlockEntry blk inode_num
    let s' := storeSet s bn r.1
    if r.2 then
      (0, if mdtDeleteRet = 0 then storeErase s' bn else s',
       evs ++ [.putBlock bn, .mdtDeleteBlock bn])
    else
      (0, s', evs ++ [.putBlock bn])

/-- C3: the addressing functions of atime.c satisfy
block_number(id) * N + offset(id) = id for every inode number; both are
plain total functions on Nat (inode_num / N and inode_num % N), with no
failure mode. -/
theorem C3_addressing_roundtrip (id : Nat) :
    nilfs_atime_get_block_number id * NILFS_ENTRIES_IN_ATIME_BLOCK +
      nilfs_atime_entry_offset id = id := by
  unfold nilfs_atime_get_block_number nilfs_atime_entry_offset
  rw [Nat.mul_comm]
  exact Nat.div_add_mod id NILFS_ENTRIES_IN_ATIME_BLOCK

/-- C7: with no atime file configured (NULL pointer), nilfs_atime_fill_inode
copies i_mtime onto i_atime, returns 0, and makes no backing-layer call at
all (no acquisition, no mutation, no release), for every inode and every
behaviour of the backing layer. -/
theorem C7_bypass_mode (same : Bool) (inode : InodeState) (acq : Option AtimeErr) :
    nilfs_atime_fill_inode none same inode acq =
      (0, { inode with i_atime := inode.i_mtime }, none, []) := rfl

/-- C10: whenever block acquisition succeeds, delete returns 0 no matter
what nilfs_mdt_delete_block returns: the reclamation result is discarded,
so a failed reclamation is never reported to the caller. -/
theorem C10_delete_return_ignores_reclaim (s : AtimeStore) (n : Nat)
    (mdtDeleteRet : Int) :
    (nilfs_atime_delete_inode_entry s n none mdtDeleteRet).1 = 0 := by
  unfold nilfs_atime_delete_inode_entry nilfs_atime_get_block
  dsimp only
  split <;> simp

/-- C8: when block acquisition fails, the error is one of EIO (code -5)
and ENOMEM (code -12); fill, update and delete return that error, leave
the inode and the store untouched, and the trace holds only the failed
nilfs_mdt_get_block call: no buffer is dirtied, no handle is held and
nothing is released, so each operation fails atomically. -/
theorem C8_acquire_failure_atomic (s : AtimeStore) (inode : InodeState)
    (e : AtimeErr) (n : Nat) (mdtDeleteRet : Int) :
    (errCode e = -5 ∨ errCode e = -12) ∧
    nilfs_atime_fill_inode (some s) false inode (some e) =
      (errCode e, inode, some s,
       [AtimeEvent.getBlock (nilfs_atime_get_block_number inode.i_ino)]) ∧
    nilfs_atime_update_from_inode s inode (some e) =
      (errCode e, s,
       [AtimeEvent.getBlock (nilfs_atime_get_block_number inode.i_ino)]) ∧
    nilfs_atime_delete_inode_entry s n (some e) mdtDeleteRet =
      (errCode e, s, [AtimeEvent.getBlock (nilfs_atime_get_block_number n)]) := by
  refine ⟨?_, rfl, rfl, rfl⟩
  cases e
  · exact Or.inl rfl
  · exact Or.inr rfl

/-- One logical operation on a single block: the post-acquisition bodies of
nilfs_atime_fill_inode and nilfs_atime_delete_inode_entry. -/
inductive BlockOp where
  | fill (inode_num : Nat) (mtime : Timespec)
  | del (inode_num : Nat)
deriving DecidableEq, Repr

/-- Apply one fill or delete to a block. -/
def applyBlockOp (b : AtimeBlock) : BlockOp → AtimeBlock
  | .fill n t => (fillBlockEntry b n t).1
  | .del n => (deleteBlockEntry b n).1

/-- Apply a sequence of fills and deletes to a block, oldest first. -/
def applyBlockOps (b : AtimeBlock) (ops : List BlockOp) : AtimeBlock :=
  ops.foldl applyBlockOp b

/-- An operation is well-formed at a state when a fill supplies a real
(non-(0,0)) timestamp and a delete targets a present entry. -/
def blockOpOK (b : AtimeBlock) : BlockOp → Bool
  | .fill _ t => !t.isAbsent
  | .del n => !(nilfs_atime_get_entry_in_block b n).isAbsent

/-- Every operation of the sequence is well-formed at the state it runs in. -/
def validOps (b : AtimeBlock) : List BlockOp → Bool
  | [] => true
  | op :: ops => blockOpOK b op && validOps (applyBlockOp b op) ops

lemma liveCountList_cons (t : Timespec) (l : List Timespec) :
    liveCountList (t :: l) =
      (if t.isAbsent then liveCountList l else liveCountList l + 1) := by
  unfold liveCountList
  cases h : t.isAbsent <;> simp [List.filter_cons, h]

lemma liveCountList_le_length (l : List Timespec) : liveCountList l ≤ l.length :=
  List.length_filter_le _ l

lemma liveCountList_set_fill (l : List Timespec) (i : Nat) (v : Timespec)
    (hi : i < l.length) (habs : (l.getD i ⟨0, 0⟩).isAbsent = true)
    (hv : v.isAbsent = false) :
    liveCountList (l.set i v) = liveCountList l + 1 := by
  induction l generalizing i with
  | nil => simp at hi
  | cons a tl ih =>
    cases i with
    | zero =>
      simp only [List.getD_cons_zero] at habs
      simp [List.set, liveCountList_cons, habs, hv]
    | succ j =>
      have hj : j < tl.length := by simpa using hi
      have habs' : (tl.getD j ⟨0, 0⟩).isAbsent = true := by
        simpa [List.getD_cons_succ] using habs
      have hih := ih j hj habs'
      cases ha : a.isAbsent with
      | false => simp [List.set, liveCountList_cons, ha, hih]
      | true => simp [List.set, liveCountList_cons, ha, hih]

lemma liveCountList_set_delete (l : List Timespec) (i : Nat)
    (hpres : (l.getD i ⟨0, 0⟩).isAbsent = false) :
    liveCountList (l.set i ⟨0, 0⟩) + 1 = liveCountList l := by
  induction l generalizing i with
  | nil =>
    exfalso
    simp [List.getD] at hpres
    exact absurd hpres (by decide)
  | cons a tl ih =>
    cases i with
    | zero =>
      simp only [List.getD_cons_zero] at hpres
      have h00 : (⟨0, 0⟩ : Timespec).isAbsent = true := by decide
      simp [List.set, liveCountList_cons, hpres, h00]
    | succ j =>
      have hpres' : (tl.getD j ⟨0, 0⟩).isAbsent = false := by
        simpa [List.getD_cons_succ] using hpres
      have hih := ih j hpres'
      cases ha : a.isAbsent with
      | false => simp [List.set, liveCountList_cons, ha]; omega
      | true => simp [List.set, liveCountList_cons, ha]; omega

/-- The invariant: the block has its fixed number of entries and the header
counter equals the number of present entries. -/
def blockInv (b : AtimeBlock) : Prop :=
  b.entries.length = NILFS_ENTRIES_IN_ATIME_BLOCK ∧
  b.header.count = liveCount b

lemma blockInv_fill (b : AtimeBlock) (n : Nat) (t : Timespec)
    (hb : blockInv b) (ht : t.isAbsent = false) :
    blockInv (fillBlockEntry b n t).1 := by
  obtain ⟨hlen, hcnt⟩ := hb
  cases habs : (nilfs_atime_get_entry_in_block b n).isAbsent with
  | false =>
    have heq : (fillBlockEntry b n t).1 = b := by
      unfold fillBlockEntry
      simp [habs]
    rw [heq]
    exact ⟨hlen, hcnt⟩
  | true =>
    have heq : (fillBlockEntry b n t).1 =
        ⟨⟨(b.header.count + 1) % U64_MOD⟩,
         b.entries.set (nilfs_atime_entry_offset n) t⟩ := by
      unfold fillBlockEntry
      simp [habs]
    have hi : nilfs_atime_entry_offset n < b.entries.length := by
      rw [hlen]
      exact Nat.mod_lt _ (by decide)
    have hset := liveCountList_set_fill b.entries (nilfs_atime_entry_offset n) t hi
      habs ht
    have hle : liveCount b ≤ NILFS_ENTRIES_IN_ATIME_BLOCK := by
      rw [← hlen]
      exact liveCountList_le_length b.entries
    have hlt : b.header.count + 1 < U64_MOD := by
      rw [hcnt]
      unfold U64_MOD
      have hN : NILFS_ENTRIES_IN_ATIME_BLOCK = 31 := by decide
      omega
    rw [heq]
    refine ⟨by simpa using hlen, ?_⟩
    show (b.header.count + 1) % U64_MOD =
      liveCountList (b.entries.set (nilfs_atime_entry_offset n) t)
    rw [hset, Nat.mod_eq_of_lt hlt, hcnt]
    rfl

lemma blockInv_delete (b : AtimeBlock) (n : Nat)
    (hb : blockInv b)
    (hp : (nilfs_atime_get_entry_in_block b n).isAbsent = false) :
    blockInv (deleteBlockEntry b n).1 := by
  obtain ⟨hlen, hcnt⟩ := hb
  have hset := liveCountList_set_delete b.entries (nilfs_atime_entry_offset n) hp
  have hle : liveCount b ≤ NILFS_ENTRIES_IN_ATIME_BLOCK := by
    rw [← hlen]
    exact liveCountList_le_length b.entries
  have hN : NILFS_ENTRIES_IN_ATIME_BLOCK = 31 := by decide
  refine ⟨by simpa [deleteBlockEntry] using hlen, ?_⟩
  show (b.header.count + (U64_MOD - 1)) % U64_MOD =
    liveCountList (b.entries.set (nilfs_atime_entry_offset n) ⟨0, 0⟩)
  unfold U64_MOD
  unfold liveCount at hcnt hle
  omega

lemma blockInv_applyBlockOp (b : AtimeBlock) (op : BlockOp)
    (hb : blockInv b) (hop : blockOpOK b op = true) :
    blockInv (applyBlockOp b op) := by
  cases op with
  | fill n t =>
    exact blockInv_fill b n t hb (by simpa [blockOpOK] using hop)
  | del n =>
    exact blockInv_delete b n hb (by simpa [blockOpOK] using hop)

lemma blockInv_applyBlockOps (ops : List BlockOp) (b : AtimeBlock)
    (hb : blockInv b) (hv : validOps b ops = true) :
    blockInv (applyBlockOps b ops) := by
  induction ops generalizing b with
  | nil => exact hb
  | cons op ops ih =>
    rw [validOps, Bool.and_eq_true] at hv
    exact ih (applyBlockOp b op) (blockInv_applyBlockOp b op hb hv.1) hv.2

/-- C1, counterexample: a single delete on a freshly created zero-filled
block (a delete whose target entry is already absent) wraps the counter to
2^64 - 1 while every entry is still (0,0), so the stated equality is not
preserved by every fill/delete sequence from a fresh block. -/
theorem C1_counterexample :
    ¬ ((applyBlockOps nilfs_atime_block_init [BlockOp.del 0]).header.count =
        liveCount (applyBlockOps nilfs_atime_block_init [BlockOp.del 0])) := by
  decide

/-- C1, amended: for every sequence of fill and delete operations from a
freshly created zero-filled block in which each fill supplies a non-(0,0)
fallback and each delete targets a present entry, the header counter of the
resulting block equals the number of its non-(0,0) entries. -/
theorem C1_live_count_invariant (ops : List BlockOp)
    (h : validOps nilfs_atime_block_init ops = true) :
    (applyBlockOps nilfs_atime_block_init ops).header.count =
      liveCount (applyBlockOps nilfs_atime_block_init ops) :=
  (blockInv_applyBlockOps ops nilfs_atime_block_init ⟨by decide, by decide⟩ h).2

/-- Witness for C1: a concrete valid fill/delete sequence. -/
theorem C1_live_count_invariant_witness :
    validOps nilfs_atime_block_init
      [BlockOp.fill 3 ⟨5, 0⟩, BlockOp.fill 7 ⟨9, 1⟩, BlockOp.del 3] = true ∧
    (applyBlockOps nilfs_atime_block_init
      [BlockOp.fill 3 ⟨5, 0⟩, BlockOp.fill 7 ⟨9, 1⟩, BlockOp.del 3]).header.count =
      liveCount (applyBlockOps nilfs_atime_block_init
        [BlockOp.fill 3 ⟨5, 0⟩, BlockOp.fill 7 ⟨9, 1⟩, BlockOp.del 3]) :=
  ⟨by decide, C1_live_count_invariant _ (by decide)⟩

lemma getD_set_self (l : List Timespec) (i : Nat) (v d : Timespec)
    (hi : i < l.length) : (l.set i v).getD i d = v := by
  induction l generalizing i with
  | nil => simp at hi
  | cons a tl ih =>
    cases i with
    | zero => simp [List.set]
    | succ j =>
      have hj : j < tl.length := by simpa using hi
      simpa [List.set, List.getD_cons_succ] using ih j hj

lemma getD_set_absent (l : List Timespec) (i : Nat) :
    (l.set i ⟨0, 0⟩).getD i ⟨0, 0⟩ = ⟨0, 0⟩ := by
  rcases Nat.lt_or_ge i l.length with h | h
  · exact getD_set_self l i ⟨0, 0⟩ ⟨0, 0⟩ h
  · rw [List.set_eq_of_length_le h]
    exact List.getD_eq_default l ⟨0, 0⟩ h

lemma fillBlockEntry_of_present (b : AtimeBlock) (n : Nat) (t : Timespec)
    (hpres : (nilfs_atime_get_entry_in_block b n).isAbsent = false) :
    fillBlockEntry b n t = (b, nilfs_atime_get_entry_in_block b n) := by
  unfold fillBlockEntry
  simp [hpres]

/-- C2, counterexample: the claim quantifies over every fallback time, but
when the first fill supplies the reserved value (0,0) the written slot is
still "absent", so a second fill with a different fallback writes and
returns the new fallback instead of being a no-op returning the first one. -/
theorem C2_counterexample :
    ¬ (fillBlockEntry (fillBlockEntry nilfs_atime_block_init 0 ⟨0, 0⟩).1 0 ⟨5, 0⟩ =
        ((fillBlockEntry nilfs_atime_block_init 0 ⟨0, 0⟩).1, (⟨0, 0⟩ : Timespec))) := by
  decide

/-- C2, amended: on an absent (0,0) entry fill writes the fallback,
increments the counter (as a wrapping 64-bit increment, a plain +1 whenever
no wraparound occurs) and returns the fallback; on a present entry fill
changes nothing and returns the stored value; hence once the entry
established by the first fill is a real, non-(0,0) timestamp, a second fill
with any other fallback is a no-op on the block and returns the
first-established value. -/
theorem C2_fill_semantics (b : AtimeBlock) (n : Nat) (t t2 : Timespec)
    (hlen : b.entries.length = NILFS_ENTRIES_IN_ATIME_BLOCK) :
    ((nilfs_atime_get_entry_in_block b n).isAbsent = true →
       (fillBlockEntry b n t).2 = t ∧
       nilfs_atime_get_entry_in_block (fillBlockEntry b n t).1 n = t ∧
       (fillBlockEntry b n t).1.header.count = (b.header.count + 1) % U64_MOD ∧
       (b.header.count + 1 < U64_MOD →
         (fillBlockEntry b n t).1.header.count = b.header.count + 1)) ∧
    ((nilfs_atime_get_entry_in_block b n).isAbsent = false →
       fillBlockEntry b n t = (b, nilfs_atime_get_entry_in_block b n)) ∧
    ((nilfs_atime_get_entry_in_block b n).isAbsent = true → t.isAbsent = false →
       fillBlockEntry (fillBlockEntry b n t).1 n t2 = ((fillBlockEntry b n t).1, t)) := by
  have hi : nilfs_atime_entry_offset n < b.entries.length := by
    rw [hlen]
    exact Nat.mod_lt _ (by decide)
  refine ⟨fun habs => ?_, fun hpres => ?_, fun habs ht => ?_⟩
  · have heq : fillBlockEntry b n t =
        (⟨⟨(b.header.count + 1) % U64_MOD⟩,
          b.entries.set (nilfs_atime_entry_offset n) t⟩, t) := by
      unfold fillBlockEntry
      simp [habs]
    rw [heq]
    refine ⟨rfl, ?_, rfl, fun hlt => Nat.mod_eq_of_lt hlt⟩
    show (b.entries.set (nilfs_atime_entry_offset n) t).getD
      (nilfs_atime_entry_offset n) ⟨0, 0⟩ = t
    exact getD_set_self b.entries _ t ⟨0, 0⟩ hi
  · exact fillBlockEntry_of_present b n t hpres
  · have heq : fillBlockEntry b n t =
        (⟨⟨(b.header.count + 1) % U64_MOD⟩,
          b.entries.set (nilfs_atime_entry_offset n) t⟩, t) := by
      unfold fillBlockEntry
      simp [habs]
    have hafter : nilfs_atime_get_entry_in_block (fillBlockEntry b n t).1 n = t := by
      rw [heq]
      exact getD_set_self b.entries _ t ⟨0, 0⟩ hi
    have h2 := fillBlockEntry_of_present (fillBlockEntry b n t).1 n t2
      (by rw [hafter]; exact ht)
    rw [h2, hafter]

/-- Witness for C2: the spec scenario, fill(10, (1000,0)) on a fresh block
then fill(10, (2000,0)). -/
theorem C2_fill_semantics_witness :
    (nilfs_atime_block_init.entries.length = NILFS_ENTRIES_IN_ATIME_BLOCK) ∧
    (nilfs_atime_get_entry_in_block nilfs_atime_block_init 10).isAbsent = true ∧
    (fillBlockEntry nilfs_atime_block_init 10 ⟨1000, 0⟩).2 = ⟨1000, 0⟩ ∧
    fillBlockEntry (fillBlockEntry nilfs_atime_block_init 10 ⟨1000, 0⟩).1 10 ⟨2000, 0⟩ =
      ((fillBlockEntry nilfs_atime_block_init 10 ⟨1000, 0⟩).1, (⟨1000, 0⟩ : Timespec)) :=
  ⟨by decide, by decide,
   (((C2_fill_semantics nilfs_atime_block_init 10 ⟨1000, 0⟩ ⟨2000, 0⟩ (by decide)).1)
     (by decide)).1,
   ((C2_fill_semantics nilfs_atime_block_init 10 ⟨1000, 0⟩ ⟨2000, 0⟩ (by decide)).2.2)
     (by decide) (by decide)⟩

/-- C6: after a fill established the entry of inode n (the entry was
absent), a delete on n restores the slot to (0,0); the counter returns to
its value before the fill, which is exactly one less than the value the
fill left (the wrapping arithmetic degenerates to a plain increment and
decrement whenever no wraparound occurs, as on every block the code ever
builds). -/
theorem C6_delete_after_fill (b : AtimeBlock) (n : Nat) (t : Timespec)
    (habs : (nilfs_atime_get_entry_in_block b n).isAbsent = true) :
    nilfs_atime_get_entry_in_block
      (deleteBlockEntry (fillBlockEntry b n t).1 n).1 n = ⟨0, 0⟩ ∧
    (b.header.count < U64_MOD →
      (deleteBlockEntry (fillBlockEntry b n t).1 n).1.header.count =
        b.header.count) ∧
    (b.header.count + 1 < U64_MOD →
      (deleteBlockEntry (fillBlockEntry b n t).1 n).1.header.count =
        (fillBlockEntry b n t).1.header.count - 1) := by
  have heq : fillBlockEntry b n t =
      (⟨⟨(b.header.count + 1) % U64_MOD⟩,
        b.entries.set (nilfs_atime_entry_offset n) t⟩, t) := by
    unfold fillBlockEntry
    simp [habs]
  have hdel : (deleteBlockEntry (fillBlockEntry b n t).1 n).1 =
      ⟨⟨((b.header.count + 1) % U64_MOD + (U64_MOD - 1)) % U64_MOD⟩,
       (b.entries.set (nilfs_atime_entry_offset n) t).set
         (nilfs_atime_entry_offset n) ⟨0, 0⟩⟩ := by
    rw [heq]
    rfl
  have hcm : ((b.header.count + 1) % U64_MOD + (U64_MOD - 1)) % U64_MOD =
      b.header.count % U64_MOD := by
    rw [Nat.mod_add_mod]
    have h2 : b.header.count + 1 + (U64_MOD - 1) = b.header.count + U64_MOD := by
      unfold U64_MOD
      omega
    rw [h2]
    exact Nat.add_mod_right _ _
  refine ⟨?_, fun hc => ?_, fun hc1 => ?_⟩
  · rw [hdel]
    show ((b.entries.set (nilfs_atime_entry_offset n) t).set
      (nilfs_atime_entry_offset n) ⟨0, 0⟩).getD (nilfs_atime_entry_offset n) ⟨0, 0⟩ = ⟨0, 0⟩
    exact getD_set_absent _ _
  · rw [hdel]
    show ((b.header.count + 1) % U64_MOD + (U64_MOD - 1)) % U64_MOD = b.header.count
    rw [hcm]
    exact Nat.mod_eq_of_lt hc
  · rw [hdel, heq]
    show ((b.header.count + 1) % U64_MOD + (U64_MOD - 1)) % U64_MOD =
      (b.header.count + 1) % U64_MOD - 1
    rw [hcm, Nat.mod_eq_of_lt hc1, Nat.mod_eq_of_lt (by omega)]
    omega

/-- Witness for C6: fill(10, (1000,0)) on a fresh block, then delete(10). -/
theorem C6_delete_after_fill_witness :
    (nilfs_atime_get_entry_in_block nilfs_atime_block_init 10).isAbsent = true ∧
    nilfs_atime_get_entry_in_block
      (deleteBlockEntry (fillBlockEntry nilfs_atime_block_init 10 ⟨1000, 0⟩).1 10).1 10 =
        ⟨0, 0⟩ ∧
    (deleteBlockEntry (fillBlockEntry nilfs_atime_block_init 10 ⟨1000, 0⟩).1 10).1.header.count =
      (fillBlockEntry nilfs_atime_block_init 10 ⟨1000, 0⟩).1.header.count - 1 :=
  ⟨by decide,
   (C6_delete_after_fill nilfs_atime_block_init 10 ⟨1000, 0⟩ (by decide)).1,
   (C6_delete_after_fill nilfs_atime_block_init 10 ⟨1000, 0⟩ (by decide)).2.2
     (by decide)⟩

lemma delete_ok_reduce (s : AtimeStore) (n : Nat) (mdtDeleteRet : Int) :
    nilfs_atime_delete_inode_entry s n none mdtDeleteRet =
      (if (deleteBlockEntry
            ((s.blocks (nilfs_atime_get_block_number n)).getD nilfs_atime_block_init) n).2 then
        (0,
         if mdtDeleteRet = 0 then
           storeErase
             (storeSet s (nilfs_atime_get_block_number n)
               (deleteBlockEntry
                 ((s.blocks (nilfs_atime_get_block_number n)).getD nilfs_atime_block_init) n).1)
             (nilfs_atime_get_block_number n)
         else
           storeSet s (nilfs_atime_get_block_number n)
             (deleteBlockEntry
               ((s.blocks (nilfs_atime_get_block_number n)).getD nilfs_atime_block_init) n).1,
         [AtimeEvent.getBlock (nilfs_atime_get_block_number n),
          AtimeEvent.markBufferDirty (nilfs_atime_get_block_number n),
          AtimeEvent.markFileDirty,
          AtimeEvent.putBlock (nilfs_atime_get_block_number n),
          AtimeEvent.mdtDeleteBlock (nilfs_atime_get_block_number n)])
      else
        (0,
         storeSet s (nilfs_atime_get_block_number n)
           (deleteBlockEntry
             ((s.blocks (nilfs_atime_get_block_number n)).getD nilfs_atime_block_init) n).1,
         [AtimeEvent.getBlock (nilfs_atime_get_block_number n),
          AtimeEvent.markBufferDirty (nilfs_atime_get_block_number n),
          AtimeEvent.markFileDirty,
          AtimeEvent.putBlock (nilfs_atime_get_block_number n)])) := rfl

/-- C5: delete never guards against an absent entry: on a block whose
counter is already 0 (as after deleting the same inode twice with no
intervening fill or update), the unsigned 64-bit decrement wraps the
counter to 2^64 - 1, no error is raised, and the call still returns 0. -/
theorem C5_double_delete_wraps (s : AtimeStore) (n : Nat) (mdtDeleteRet : Int)
    (h : ((s.blocks (nilfs_atime_get_block_number n)).getD
            nilfs_atime_block_init).header.count = 0) :
    (nilfs_atime_delete_inode_entry s n none mdtDeleteRet).1 = 0 ∧
    (((nilfs_atime_delete_inode_entry s n none mdtDeleteRet).2.1.blocks
        (nilfs_atime_get_block_number n)).getD nilfs_atime_block_init).header.count =
      U64_MOD - 1 := by
  rw [delete_ok_reduce]
  have hcnt : (deleteBlockEntry
      ((s.blocks (nilfs_atime_get_block_number n)).getD nilfs_atime_block_init)
      n).1.header.count = U64_MOD - 1 := by
    show (((s.blocks (nilfs_atime_get_block_number n)).getD
      nilfs_atime_block_init).header.count + (U64_MOD - 1)) % U64_MOD = U64_MOD - 1
    rw [h]
    decide
  have hrel : (deleteBlockEntry
      ((s.blocks (nilfs_atime_get_block_number n)).getD nilfs_atime_block_init)
      n).2 = false := by
    show ((((s.blocks (nilfs_atime_get_block_number n)).getD
      nilfs_atime_block_init).header.count + (U64_MOD - 1)) % U64_MOD == 0) = false
    rw [h]
    decide
  rw [hrel]
  simp only [Bool.false_eq_true, if_false]
  exact ⟨by simp, by simp [storeSet, hcnt]⟩

/-- The store after fill(inode 10, mtime (1000,0)) and one delete(10) on an
initially empty atime file, with every backing call succeeding: the only
block was reclaimed, so the counter the next delete sees is 0. -/
def doubleDeleteStore : AtimeStore :=
  (nilfs_atime_delete_inode_entry
    (((nilfs_atime_fill_inode (some emptyStore) false ⟨10, ⟨0, 0⟩, ⟨1000, 0⟩⟩
        none).2.2.1).getD emptyStore)
    10 none 0).2.1

/-- Witness for C5: the second delete of inode 10 without an intervening
fill or update runs on a zero counter, returns 0 and wraps the counter. -/
theorem C5_double_delete_wraps_witness :
    ((doubleDeleteStore.blocks (nilfs_atime_get_block_number 10)).getD
        nilfs_atime_block_init).header.count = 0 ∧
    (nilfs_atime_delete_inode_entry doubleDeleteStore 10 none 0).1 = 0 ∧
    (((nilfs_atime_delete_inode_entry doubleDeleteStore 10 none 0).2.1.blocks
        (nilfs_atime_get_block_number 10)).getD nilfs_atime_block_init).header.count =
      U64_MOD - 1 :=
  ⟨by decide,
   (C5_double_delete_wraps doubleDeleteStore 10 0 (by decide)).1,
   (C5_double_delete_wraps doubleDeleteStore 10 0 (by decide)).2⟩

/-- True exactly for a reclamation request (nilfs_mdt_delete_block). -/
def isReclaimEvent : AtimeEvent → Bool
  | .mdtDeleteBlock _ => true
  | _ => false

/-- C4: on a successful acquisition, when the decrement takes the counter
from 1 to 0 the delete emits exactly one reclamation request, for the right
block number, as the last event of the trace, strictly after the release of
the block handle (the release is the fourth event, the reclamation the
fifth); when the decrement leaves the counter non-zero, no reclamation
request is emitted at all. -/
theorem C4_reclaim_only_after_release (s : AtimeStore) (n : Nat)
    (mdtDeleteRet : Int) :
    (((s.blocks (nilfs_atime_get_block_number n)).getD
        nilfs_atime_block_init).header.count = 1 →
      ((nilfs_atime_delete_inode_entry s n none mdtDeleteRet).2.2.countP
        isReclaimEvent) = 1 ∧
      (nilfs_atime_delete_inode_entry s n none mdtDeleteRet).2.2.length = 5 ∧
      (nilfs_atime_delete_inode_entry s n none mdtDeleteRet).2.2[3]? =
        some (AtimeEvent.putBlock (nilfs_atime_get_block_number n)) ∧
      (nilfs_atime_delete_inode_entry s n none mdtDeleteRet).2.2[4]? =
        some (AtimeEvent.mdtDeleteBlock (nilfs_atime_get_block_number n))) ∧
    ((((s.blocks (nilfs_atime_get_block_number n)).getD
        nilfs_atime_block_init).header.count + (U64_MOD - 1)) % U64_MOD ≠ 0 →
      ((nilfs_atime_delete_inode_entry s n none mdtDeleteRet).2.2.countP
        isReclaimEvent) = 0) := by
  rw [delete_ok_reduce]
  constructor
  · intro h1
    have hrel : (deleteBlockEntry
        ((s.blocks (nilfs_atime_get_block_number n)).getD nilfs_atime_block_init)
        n).2 = true := by
      show ((((s.blocks (nilfs_atime_get_block_number n)).getD
        nilfs_atime_block_init).header.count + (U64_MOD - 1)) % U64_MOD == 0) = true
      rw [h1]
      decide
    rw [hrel]
    simp [List.countP_cons, isReclaimEvent]
  · intro h2
    have hrel : (deleteBlockEntry
        ((s.blocks (nilfs_atime_get_block_number n)).getD nilfs_atime_block_init)
        n).2 = false := by
      show ((((s.blocks (nilfs_atime_get_block_number n)).getD
        nilfs_atime_block_init).header.count + (U64_MOD - 1)) % U64_MOD == 0) = false
      rw [beq_eq_false_iff_ne]
      exact h2
    rw [hrel]
    simp [List.countP_cons, isReclaimEvent]

/-- A one-block store whose counter is 1: fill(5, (7,0)) from empty. -/
def singleEntryStore : AtimeStore :=
  ((nilfs_atime_fill_inode (some emptyStore) false ⟨5, ⟨0, 0⟩, ⟨7, 0⟩⟩
      none).2.2.1).getD emptyStore

/-- Witness for C4: deleting the single live entry of a one-entry block
emits exactly one reclamation request, after the release. -/
theorem C4_reclaim_only_after_release_witness :
    ((singleEntryStore.blocks (nilfs_atime_get_block_number 5)).getD
        nilfs_atime_block_init).header.count = 1 ∧
    ((nilfs_atime_delete_inode_entry singleEntryStore 5 none 0).2.2.countP
      isReclaimEvent) = 1 ∧
    (nilfs_atime_delete_inode_entry singleEntryStore 5 none 0).2.2[3]? =
      some (AtimeEvent.putBlock (nilfs_atime_get_block_number 5)) ∧
    (nilfs_atime_delete_inode_entry singleEntryStore 5 none 0).2.2[4]? =
      some (AtimeEvent.mdtDeleteBlock (nilfs_atime_get_block_number 5)) :=
  ⟨by decide,
   ((C4_reclaim_only_after_release singleEntryStore 5 0).1 (by decide)).1,
   ((C4_reclaim_only_after_release singleEntryStore 5 0).1 (by decide)).2.2.1,
   ((C4_reclaim_only_after_release singleEntryStore 5 0).1 (by decide)).2.2.2⟩

/-- C9: the block layout constant is N = (512 - 8) / 16 = 31; inode 30
lands in block 0 and inode 31 in block 1; and every fill, update or delete
on an inode, with any outcome of the backing layer, leaves every block
other than the target one (counter and entries alike) exactly as it was. -/
theorem C9_block_layout_and_frame (s : AtimeStore) (inode : InodeState) (m : Nat)
    (acq : Option AtimeErr) (mdtDeleteRet : Int)
    (h : nilfs_atime_get_block_number inode.i_ino ≠ m) :
    NILFS_ENTRIES_IN_ATIME_BLOCK = 31 ∧
    nilfs_atime_get_block_number 30 = 0 ∧
    nilfs_atime_get_block_number 31 = 1 ∧
    ((nilfs_atime_fill_inode (some s) false inode acq).2.2.1.getD emptyStore).blocks m =
      s.blocks m ∧
    (nilfs_atime_update_from_inode s inode acq).2.1.blocks m = s.blocks m ∧
    (nilfs_atime_delete_inode_entry s inode.i_ino acq mdtDeleteRet).2.1.blocks m =
      s.blocks m := by
  have h' : m ≠ nilfs_atime_get_block_number inode.i_ino := Ne.symm h
  refine ⟨by decide, by decide, by decide, ?_, ?_, ?_⟩
  · cases acq with
    | some e => rfl
    | none => simp [nilfs_atime_fill_inode, nilfs_atime_get_block, storeSet, h']
  · cases acq with
    | some e => rfl
    | none => simp [nilfs_atime_update_from_inode, nilfs_atime_get_block, storeSet, h']
  · cases acq with
    | some e => rfl
    | none =>
      rw [delete_ok_reduce]
      split
      · split
        · simp [storeErase, storeSet, h']
        · simp [storeSet, h']
      · simp [storeSet, h']

/-- Witness for C9: a fill of inode 30 (block 0) on the empty store leaves
block 1 nonexistent, exactly as it was. -/
theorem C9_block_layout_and_frame_witness :
    nilfs_atime_get_block_number 30 ≠ 1 ∧
    ((nilfs_atime_fill_inode (some emptyStore) false ⟨30, ⟨0, 0⟩, ⟨5, 0⟩⟩
        none).2.2.1.getD emptyStore).blocks 1 = emptyStore.blocks 1 :=
  ⟨by decide,
   (C9_block_layout_and_frame emptyStore ⟨30, ⟨0, 0⟩, ⟨5, 0⟩⟩ 1 none 0
     (by decide)).2.2.2.1⟩
